import Mathlib

/-!
Shallow embedding of the dynamic-view engine of `structurizr-python`
(`src/structurizr/view/dynamic_view.py`), covering relationship resolution,
scope validation, sequence numbering and the `add` operation, together with
theorems settling the specification claims.

Python objects are modelled by records carrying a unique `id`; Python `is`
identity between model elements is modelled as equality of ids.  Optional
string arguments (`Optional[str]`) are `Option String`; Python truthiness of
such a value (`if technology:`) is "is `some` of a non-empty string".
-/

namespace Structurizr

/-- Kind tag of a model element.  `person`, `softwareSystem`, `container` and
`component` are the `StaticStructureElement` subclasses; `other` stands for
any `Element` subclass that is not a `StaticStructureElement`. -/
inductive ElementKind
  | person
  | softwareSystem
  | container
  | component
  | other
deriving DecidableEq, Repr

/-- A model element, read-only for the view code: identity, name, kind tag and
(for containers/components) the id of the parent element. -/
structure Element where
  id : Nat
  name : String
  kind : ElementKind
  parent : Option Nat
deriving DecidableEq, Repr

/-- A declared relationship of the model: source and destination element ids,
description text (possibly empty) and optional technology. -/
structure Relationship where
  id : Nat
  source : Nat
  destination : Nat
  description : String
  technology : Option String
deriving DecidableEq, Repr

/-- The read-only part of the model the view consults: the elements and the
relationships in their declared order. -/
structure Model where
  elements : List Element
  relationships : List Relationship
deriving Repr

/-- Modelled from the spec: element lookup by identity (spec §6, "Element
lookup by identity"); the model-registry code is not under `src/`. -/
def Model.lookup (m : Model) (i : Nat) : Option Element :=
  m.elements.find? (fun e => e.id == i)

/-- Modelled from the spec: the per-element efferent relationship index
(spec §6, "efferent relationships of X"): the relationships whose source is
the element, in the model's declared order.  `Element.get_efferent_relationships`
is not under `src/`. -/
def getEfferentRelationships (m : Model) (e : Element) : List Relationship :=
  m.relationships.filter (fun rel => rel.source == e.id)

/-- Modelled from the spec: the per-element afferent relationship index
(spec §6, "afferent relationships of X"): the relationships whose destination
is the element, in the model's declared order.
`Element.get_afferent_relationships` is not under `src/`. -/
def getAfferentRelationships (m : Model) (e : Element) : List Relationship :=
  m.relationships.filter (fun rel => rel.destination == e.id)

/-- Python truthiness of an `Optional[str]`: `None` and `""` are falsy. -/
def strTruthy : Option String → Bool
  | none => false
  | some s => !(s == "")

/-- The forward-match predicate of `DynamicView._find_relationship`, line for
line: `rel.destination is destination and (rel.description == description or
not description) and (rel.technology == technology or technology is None)`.
Note `rel.description == description` compares a `str` with an
`Optional[str]`, which in Python is `False` when `description is None`. -/
def forwardMatches (rel : Relationship) (destination : Element)
    (description technology : Option String) : Bool :=
  rel.destination == destination.id
    && (some rel.description == description || !(strTruthy description))
    && (rel.technology == technology || technology == none)

/-- The response-match predicate of `DynamicView._find_relationship`:
`rel.source is destination and (rel.technology == technology or technology is
None)` — the description is ignored. -/
def responseMatches (rel : Relationship) (destination : Element)
    (technology : Option String) : Bool :=
  rel.source == destination.id
    && (rel.technology == technology || technology == none)

/-- `DynamicView._find_relationship`: scan the efferent relationships of
`source` for the first forward match and return it with response flag
`false`; otherwise scan the afferent relationships of `source` for the first
reverse-direction match and return it (possibly `none`) with flag `true`. -/
def findRelationship (m : Model) (source : Element) (description : Option String)
    (destination : Element) (technology : Option String) :
    Option Relationship × Bool :=
  match (getEfferentRelationships m source).find?
      (fun rel => forwardMatches rel destination description technology) with
  | some rel => (some rel, false)
  | none =>
    ((getAfferentRelationships m source).find?
      (fun rel => responseMatches rel destination technology), true)

/-- Errors raised by the view code.  Every failure in
`DynamicView.check_element_can_be_added` and `DynamicView.add` is a Python
`ValueError` carrying a message; the `assert self.element is None` in the
no-scope branch would be an `AssertionError`. -/
inductive ViewError
  | valueError (msg : String)
  | assertionError
deriving DecidableEq, Repr

/-- A record of one interaction added to the view, as produced by
`_add_relationship`: the resolved relationship's id, the effective
description, the order label and the response flag. -/
structure RelationshipView where
  relationshipId : Nat
  description : String
  order : String
  response : Bool
deriving DecidableEq, Repr

/-- Modelled from the spec: the `SequenceNumber` state (spec §3
"SequenceState", §4.3 "SequenceTracker"); `sequence_number.py` is not under
`src/`.  A never-empty stack of branch frames, each holding a counter:
`counter` is the active top frame, `parents` the enclosing frames nearest
first (empty in the base state). -/
structure SequenceNumber where
  counter : Nat
  parents : List Nat
deriving DecidableEq, Repr

/-- Modelled from the spec: `next()` increments the active frame's counter
and returns its decimal rendering as the label (spec §4.3 base state;
the docstring example of `DynamicView.parallel_sequence` shows the same
plain labels inside branches). -/
def SequenceNumber.getNext (s : SequenceNumber) : String × SequenceNumber :=
  (toString (s.counter + 1), { s with counter := s.counter + 1 })

/-- Modelled from the spec: `startParallel` pushes a new frame whose starting
counter equals the current counter value, so sibling branches reuse the
number that would come next (spec §4.3). -/
def SequenceNumber.startParallelSequence (s : SequenceNumber) : SequenceNumber :=
  { counter := s.counter, parents := s.counter :: s.parents }

/-- Modelled from the spec: `endParallel(continueNumbering)` pops the top
frame; with `continueNumbering = true` the parent's counter is advanced to
the highest number reached inside the branch, with `false` it is left
unchanged (spec §4.3).  Popping the base frame is a fatal underflow,
modelled as `none`. -/
def SequenceNumber.endParallelSequence (continueNumbering : Bool)
    (s : SequenceNumber) : Option SequenceNumber :=
  match s.parents with
  | [] => none
  | p :: rest =>
    some { counter := if continueNumbering then s.counter else p, parents := rest }

/-- The mutable state of a `DynamicView`: the scope element (a software
system, a container, or none), the ids of the elements already added, the
ordered interaction records, and the sequence-number state. -/
structure ViewState where
  scope : Option Element
  elementIds : List Nat
  relationshipViews : List RelationshipView
  sequenceNumber : SequenceNumber
deriving Repr

/-- Modelled from the spec: the shared ancestor chain walk (spec §9): the ids
reached by walking `parent` links upward from parent id `p`, defensively
bounded by `fuel` (the model's maximum nesting depth is 3). -/
def ancestorIds (m : Model) : Option Nat → Nat → List Nat
  | _, 0 => []
  | none, _ => []
  | some p, fuel + 1 =>
    p :: (match m.lookup p with
          | none => []
          | some e => ancestorIds m e.parent fuel)

/-- Modelled from the spec: `check_parent_and_children_not_in_view`
(spec §4.1 shared check; the method is not under `src/`): reject when the
candidate element is an ancestor of the scope or the scope is an ancestor of
the candidate along the containment chain. -/
def checkParentAndChildrenNotInView (m : Model) (scope element : Element) :
    Except ViewError Unit :=
  if element.id ∈ ancestorIds m scope.parent 3
      || scope.id ∈ ancestorIds m element.parent 3 then
    .error (.valueError (element.name ++
      " has a parent or child already in this view and cannot be added to it."))
  else
    .ok ()

/-- `DynamicView.check_element_can_be_added`, branch for branch: non-static
elements are rejected; a person is always accepted; with a software-system
scope the scope itself and components are rejected, then the shared
parent/children check runs; with a container scope the scope and its parent
system are rejected, then the shared check runs; with no scope only software
systems (and people) are accepted. -/
def checkElementCanBeAdded (m : Model) (scope : Option Element)
    (element : Element) : Except ViewError Unit :=
  if element.kind == .other then
    .error (.valueError
      ("Only people, software systems, containers and components can be " ++
       "added to dynamic views."))
  else if element.kind == .person then
    .ok ()
  else
    match scope with
    | some sc =>
      if sc.kind == .softwareSystem then
        if element.id == sc.id then
          .error (.valueError (element.name ++
            " is already the scope of this view and cannot be added to it."))
        else if element.kind == .component then
          .error (.valueError
            ("Components can't be added to a dynamic view when the scope is a " ++
             "software system"))
        else
          checkParentAndChildrenNotInView m sc element
      else if sc.kind == .container then
        if element.id == sc.id || some element.id == sc.parent then
          .error (.valueError (element.name ++
            " is already the scope of this view and cannot be added to it."))
        else
          checkParentAndChildrenNotInView m sc element
      else
        .error .assertionError
    | none =>
      if !(element.kind == .softwareSystem) then
        .error (.valueError
          ("Only people and software systems can be added to this dynamic " ++
           "view."))
      else
        .ok ()

/-- Modelled from the spec: `View._add_element` (not under `src/`) registers
an element in the view's element set, preserving insertion order (spec §3). -/
def addElementToView (v : ViewState) (e : Element) : ViewState :=
  if v.elementIds.contains e.id then v
  else { v with elementIds := v.elementIds ++ [e.id] }

/-- Modelled from the spec: `View._add_relationship` (not under `src/`)
appends an interaction record carrying the relationship id, the effective
description, the order label and the response flag (spec §6). -/
def addRelationshipToView (v : ViewState) (relId : Nat)
    (description order : String) (response : Bool) :
    ViewState × RelationshipView :=
  let rv : RelationshipView := ⟨relId, description, order, response⟩
  ({ v with relationshipViews := v.relationshipViews ++ [rv] }, rv)

/-- Python `description or relationship.description` for an `Optional[str]`:
the argument when it is a non-empty string, the fallback otherwise. -/
def pyStrOr (description : Option String) (fallback : String) : String :=
  if strTruthy description then description.getD fallback else fallback

/-- The message of the `ValueError` raised by `DynamicView.add` when no
relationship is found, with the two f-string variants selected by the
truthiness of `technology`. -/
def relationshipNotFoundMessage (source destination : Element)
    (technology : Option String) : String :=
  if strTruthy technology then
    "A relationship between " ++ source.name ++ " and " ++ destination.name ++
      " with technology '" ++ technology.getD "" ++
      "' does not exist in model."
  else
    "A relationship between " ++ source.name ++ " and " ++ destination.name ++
      " does not exist in model."

/-- `DynamicView.add`, statement for statement, threading the view state
explicitly: validate source and destination, resolve the relationship,
raise if none was found, then register both elements, draw the next sequence
number and append the interaction record.  The returned state is the view's
state at the point control leaves `add`, so a raise before any mutation
returns the input state. -/
def add (m : Model) (v : ViewState) (source destination : Element)
    (description : Option String) (technology : Option String) :
    ViewState × Except ViewError RelationshipView :=
  match checkElementCanBeAdded m v.scope source with
  | .error e => (v, .error e)
  | .ok _ =>
    match checkElementCanBeAdded m v.scope destination with
    | .error e => (v, .error e)
    | .ok _ =>
      match findRelationship m source description destination technology with
      | (none, _) =>
        (v, .error (.valueError
          (relationshipNotFoundMessage source destination technology)))
      | (some relationship, response) =>
        let v1 := addElementToView v source
        let v2 := addElementToView v1 destination
        let next := v2.sequenceNumber.getNext
        let v3 := { v2 with sequenceNumber := next.2 }
        let out := addRelationshipToView v3 relationship.id
          (pyStrOr description relationship.description) next.1 response
        (out.1, .ok out.2)

/-- Arguments of one `add` call, used to describe bodies of parallel blocks. -/
structure AddCall where
  source : Element
  destination : Element
  description : Option String
  technology : Option String

/-- Run a list of `add` calls in order, stopping at the first failure the way
a raised exception propagates out of a Python block. -/
def runAdds (m : Model) : ViewState → List AddCall →
    ViewState × Except ViewError Unit
  | v, [] => (v, .ok ())
  | v, c :: rest =>
    match add m v c.source c.destination c.description c.technology with
    | (v1, .ok _) => runAdds m v1 rest
    | (v1, .error e) => (v1, .error e)

/-- `DynamicView.parallel_sequence` as a scoped block over a body of `add`
calls: `start_parallel_sequence` on entry, the body, and — by the
`try`/`finally` — `end_parallel_sequence(continue_numbering)` on exit whether
or not the body raised.  `none` models the fatal stack underflow. -/
def parallelSequence (m : Model) (continueNumbering : Bool)
    (calls : List AddCall) (v : ViewState) :
    Option (ViewState × Except ViewError Unit) :=
  match runAdds m
      { v with sequenceNumber := v.sequenceNumber.startParallelSequence }
      calls with
  | (v2, r) =>
    match SequenceNumber.endParallelSequence continueNumbering
        v2.sequenceNumber with
    | none => none
    | some s => some ({ v2 with sequenceNumber := s }, r)

/-- The spec's wording of a forward candidate match (spec §4.2 step 1):
destination equals the target, the description is empty/unspecified or equals
the candidate's, and the technology is unspecified or equals the
candidate's.  Stated independently of the code's `forwardMatches` so the two
can be compared. -/
def SpecForwardMatch (rel : Relationship) (destination : Element)
    (description technology : Option String) : Prop :=
  rel.destination = destination.id ∧
    (description = none ∨ description = some "" ∨
      description = some rel.description) ∧
    (technology = none ∨ rel.technology = technology)

/-- The spec's wording of a response candidate match (spec §4.2 step 2): the
candidate's declared source equals the given destination and the technology
is unspecified or equals the candidate's; the description plays no part. -/
def SpecResponseMatch (rel : Relationship) (destination : Element)
    (technology : Option String) : Prop :=
  rel.source = destination.id ∧
    (technology = none ∨ rel.technology = technology)

/-- The spec's forward match is decidable, so witnesses can evaluate it. -/
instance (rel : Relationship) (destination : Element)
    (description technology : Option String) :
    Decidable (SpecForwardMatch rel destination description technology) := by
  unfold SpecForwardMatch
  infer_instance

/-- The spec's response match is decidable, so witnesses can evaluate it. -/
instance (rel : Relationship) (destination : Element)
    (technology : Option String) :
    Decidable (SpecResponseMatch rel destination technology) := by
  unfold SpecResponseMatch
  infer_instance

/-! Concrete fixture model used by the witness theorems: software systems
`A`, `B` and `D`, a person `P`, a container `C` inside `A`, and a single
declared relationship `A → B` "Requests data". -/

/-- Fixture software system `A`. -/
def wA : Element := ⟨0, "A", .softwareSystem, none⟩

/-- Fixture software system `B`. -/
def wB : Element := ⟨1, "B", .softwareSystem, none⟩

/-- Fixture person `P`. -/
def wP : Element := ⟨2, "P", .person, none⟩

/-- Fixture container `C`, inside software system `A`. -/
def wC : Element := ⟨3, "C", .container, some 0⟩

/-- Fixture software system `D`, with no relationships. -/
def wD : Element := ⟨5, "D", .softwareSystem, none⟩

/-- Fixture relationship `A → B` "Requests data". -/
def wR1 : Relationship := ⟨10, 0, 1, "Requests data", none⟩

/-- Fixture model holding the fixture elements and relationship. -/
def wM : Model := ⟨[wA, wB, wP, wC, wD], [wR1]⟩

/-- Fixture view with no scope, freshly constructed. -/
def wV : ViewState := ⟨none, [], [], ⟨0, []⟩⟩

/-! Helper lemmas. -/

/-- The code's forward-match predicate coincides with the spec's wording. -/
theorem forwardMatches_iff_spec (rel : Relationship) (destination : Element)
    (description technology : Option String) :
    forwardMatches rel destination description technology = true ↔
      SpecForwardMatch rel destination description technology := by
  unfold forwardMatches SpecForwardMatch strTruthy
  cases description <;> cases technology <;>
    simp only [Bool.or_eq_true, Bool.and_eq_true, Bool.not_eq_true',
      Bool.not_eq_true, beq_iff_eq, beq_eq_false_iff_ne] <;>
    simp <;> tauto

/-- The code's response-match predicate coincides with the spec's wording. -/
theorem responseMatches_iff_spec (rel : Relationship) (destination : Element)
    (technology : Option String) :
    responseMatches rel destination technology = true ↔
      SpecResponseMatch rel destination technology := by
  unfold responseMatches SpecResponseMatch
  cases technology <;>
    simp only [Bool.or_eq_true, Bool.and_eq_true, Bool.not_eq_true',
      Bool.not_eq_true, beq_iff_eq, beq_eq_false_iff_ne] <;>
    simp

/-- Registering an element leaves the scope unchanged. -/
@[simp] theorem addElementToView_scope (v : ViewState) (e : Element) :
    (addElementToView v e).scope = v.scope := by
  unfold addElementToView; split <;> rfl

/-- Registering an element leaves the interaction records unchanged. -/
@[simp] theorem addElementToView_relationshipViews (v : ViewState) (e : Element) :
    (addElementToView v e).relationshipViews = v.relationshipViews := by
  unfold addElementToView; split <;> rfl

/-- Registering an element leaves the sequence number unchanged. -/
@[simp] theorem addElementToView_sequenceNumber (v : ViewState) (e : Element) :
    (addElementToView v e).sequenceNumber = v.sequenceNumber := by
  unfold addElementToView; split <;> rfl

/-- C1: for every call `resolve(source, destination, description, technology)`,
if some efferent (outgoing) relationship of `source` has destination equal to
the given destination, matching description (empty/unspecified or equal) and
matching technology (unspecified or equal), then `resolve` returns the first
such relationship in the model's declared order, with `isResponse = false`. -/
theorem resolve_returns_first_forward_match (m : Model)
    (source destination : Element) (description technology : Option String)
    (h : ∃ rel ∈ getEfferentRelationships m source,
        SpecForwardMatch rel destination description technology) :
    ∃ r pre post,
      findRelationship m source description destination technology =
        (some r, false) ∧
      SpecForwardMatch r destination description technology ∧
      getEfferentRelationships m source = pre ++ r :: post ∧
      ∀ r' ∈ pre, ¬ SpecForwardMatch r' destination description technology := by
  obtain ⟨rel, hmem, hmatch⟩ := h
  have hsome : ((getEfferentRelationships m source).find?
      (fun rel => forwardMatches rel destination description technology)).isSome := by
    rw [List.find?_isSome]
    exact ⟨rel, hmem,
      (forwardMatches_iff_spec rel destination description technology).mpr hmatch⟩
  obtain ⟨r, hr⟩ := Option.isSome_iff_exists.mp hsome
  obtain ⟨hpr, pre, post, hsplit, hpre⟩ := List.find?_eq_some.mp hr
  refine ⟨r, pre, post, ?_, ?_, hsplit, ?_⟩
  · unfold findRelationship
    rw [hr]
  · exact (forwardMatches_iff_spec r destination description technology).mp hpr
  · intro r' hr' hc
    have hfalse := hpre r' hr'
    rw [Bool.not_eq_true'] at hfalse
    rw [(forwardMatches_iff_spec r' destination description technology).mpr hc]
      at hfalse
    exact Bool.noConfusion hfalse

/-- C2: for every call `resolve(source, destination, description, technology)`,
a reverse-direction relationship `r` is returned flagged `isResponse = true`
if and only if no forward match exists and `r` is the first afferent
(incoming) relationship of `source` whose declared source equals the given
destination with matching technology; the description argument plays no part
in response matching. -/
theorem resolve_response_iff (m : Model) (source destination : Element)
    (description technology : Option String) (r : Relationship) :
    findRelationship m source description destination technology =
        (some r, true) ↔
      (∀ rel ∈ getEfferentRelationships m source,
          ¬ SpecForwardMatch rel destination description technology) ∧
      SpecResponseMatch r destination technology ∧
      ∃ pre post,
        getAfferentRelationships m source = pre ++ r :: post ∧
        ∀ r' ∈ pre, ¬ SpecResponseMatch r' destination technology := by
  unfold findRelationship
  constructor
  · intro h
    cases hf : (getEfferentRelationships m source).find?
        (fun rel => forwardMatches rel destination description technology) with
    | some rel =>
      rw [hf] at h
      exact absurd (Prod.mk.injEq _ _ _ _ ▸ h).2 (by simp)
    | none =>
      rw [hf] at h
      have hresp : (getAfferentRelationships m source).find?
          (fun rel => responseMatches rel destination technology) = some r :=
        (Prod.mk.injEq _ _ _ _ ▸ h).1
      obtain ⟨hpr, pre, post, hsplit, hpre⟩ := List.find?_eq_some.mp hresp
      refine ⟨?_, ?_, pre, post, hsplit, ?_⟩
      · intro rel hmem hc
        have := List.find?_eq_none.mp hf rel hmem
        exact this
          ((forwardMatches_iff_spec rel destination description technology).mpr hc)
      · exact (responseMatches_iff_spec r destination technology).mp hpr
      · intro r' hr' hc
        have hfalse := hpre r' hr'
        rw [Bool.not_eq_true'] at hfalse
        rw [(responseMatches_iff_spec r' destination technology).mpr hc] at hfalse
        exact Bool.noConfusion hfalse
  · rintro ⟨hnofwd, hrm, pre, post, hsplit, hpre⟩
    have hf : (getEfferentRelationships m source).find?
        (fun rel => forwardMatches rel destination description technology) =
          none := by
      rw [List.find?_eq_none]
      intro x hx hc
      exact hnofwd x hx
        ((forwardMatches_iff_spec x destination description technology).mp hc)
    have hresp : (getAfferentRelationships m source).find?
        (fun rel => responseMatches rel destination technology) = some r := by
      rw [List.find?_eq_some]
      refine ⟨(responseMatches_iff_spec r destination technology).mpr hrm,
        pre, post, hsplit, ?_⟩
      intro a ha
      rw [Bool.not_eq_true']
      cases hb : responseMatches a destination technology with
      | false => rfl
      | true =>
        exact absurd ((responseMatches_iff_spec a destination technology).mp hb)
          (hpre a ha)
    rw [hf, hresp]

/-- Full characterization of a successful `add`: the relationship was
resolved, the returned record carries its id, the effective description, the
next decimal label and the response flag, and the state change is exactly
one appended record plus one counter increment. -/
theorem add_ok_spec (m : Model) (v : ViewState) (source destination : Element)
    (description technology : Option String) (v' : ViewState)
    (rv : RelationshipView)
    (h : add m v source destination description technology = (v', .ok rv)) :
    ∃ rel resp,
      findRelationship m source description destination technology =
        (some rel, resp) ∧
      rv = ⟨rel.id, pyStrOr description rel.description,
            toString (v.sequenceNumber.counter + 1), resp⟩ ∧
      v'.scope = v.scope ∧
      v'.relationshipViews = v.relationshipViews ++ [rv] ∧
      v'.sequenceNumber =
        ⟨v.sequenceNumber.counter + 1, v.sequenceNumber.parents⟩ := by
  unfold add at h
  cases hc1 : checkElementCanBeAdded m v.scope source with
  | error e => rw [hc1] at h; simp at h
  | ok u1 =>
    rw [hc1] at h
    cases hc2 : checkElementCanBeAdded m v.scope destination with
    | error e => rw [hc2] at h; simp at h
    | ok u2 =>
      rw [hc2] at h
      cases hf : findRelationship m source description destination technology with
      | mk orel respFlag =>
        rw [hf] at h
        cases orel with
        | none => simp at h
        | some rel =>
          simp only [addElementToView_scope, addElementToView_relationshipViews,
            addElementToView_sequenceNumber, SequenceNumber.getNext,
            addRelationshipToView, Prod.mk.injEq, Except.ok.injEq] at h
          obtain ⟨hv, hrv⟩ := h
          subst hv
          subst hrv
          exact ⟨rel, respFlag, rfl, rfl, rfl, rfl, rfl⟩

/-- An `add` call that raises does so before any mutation, so the state it
returns is the input state. -/
theorem add_error_state_eq (m : Model) (v : ViewState)
    (source destination : Element) (description technology : Option String)
    (err : ViewError)
    (h : (add m v source destination description technology).2 = .error err) :
    (add m v source destination description technology).1 = v := by
  unfold add at h ⊢
  cases hc1 : checkElementCanBeAdded m v.scope source with
  | error e => simp only [hc1]
  | ok u1 =>
    simp only [hc1] at h ⊢
    cases hc2 : checkElementCanBeAdded m v.scope destination with
    | error e => simp only [hc2]
    | ok u2 =>
      simp only [hc2] at h ⊢
      cases hf : findRelationship m source description destination technology with
      | mk orel respFlag =>
        simp only [hf] at h ⊢
        cases orel with
        | none => rfl
        | some rel => simp at h

/-- C3: every failing `add` call (element not addable or relationship not
found) leaves the view's state — elements added, interaction records and
sequence counter — exactly as it was before the call. -/
theorem add_failure_leaves_state_unchanged (m : Model) (v : ViewState)
    (source destination : Element) (description technology : Option String)
    (err : ViewError)
    (h : (add m v source destination description technology).2 = .error err) :
    (add m v source destination description technology).1 = v :=
  add_error_state_eq m v source destination description technology err h

/-- C3 witness: adding the container `C` to the scopeless fixture view fails
(only people and software systems are allowed there) and the state is
unchanged. -/
theorem add_failure_leaves_state_unchanged_witness :
    (add wM wV wA wC none none).1 = wV :=
  add_failure_leaves_state_unchanged wM wV wA wC none none
    (.valueError
      "Only people and software systems can be added to this dynamic view.")
    (by rfl)

/-- C1 witness: resolving `A → B` "Requests data" in the fixture model finds
the declared relationship forward. -/
theorem resolve_returns_first_forward_match_witness :
    ∃ r pre post,
      findRelationship wM wA (some "Requests data") wB none = (some r, false) ∧
      SpecForwardMatch r wB (some "Requests data") none ∧
      getEfferentRelationships wM wA = pre ++ r :: post ∧
      ∀ r' ∈ pre, ¬ SpecForwardMatch r' wB (some "Requests data") none :=
  resolve_returns_first_forward_match wM wA wB (some "Requests data") none
    ⟨wR1, by decide, by decide⟩

/-- Characterization of a successful run of `add` calls: the scope is
unchanged, the counter of the active frame advances by the number of calls
with the frame stack untouched, and the appended records carry consecutive
decimal labels starting right after the incoming counter value. -/
theorem runAdds_ok_spec (m : Model) (calls : List AddCall) :
    ∀ (v v' : ViewState), runAdds m v calls = (v', .ok ()) →
      v'.scope = v.scope ∧
      v'.sequenceNumber =
        ⟨v.sequenceNumber.counter + calls.length, v.sequenceNumber.parents⟩ ∧
      ∃ L, v'.relationshipViews = v.relationshipViews ++ L ∧
        L.map (fun rv => rv.order) =
          (List.range calls.length).map
            (fun i => toString (v.sequenceNumber.counter + i + 1)) := by
  induction calls with
  | nil =>
    intro v v' h
    unfold runAdds at h
    rw [Prod.mk.injEq] at h
    obtain ⟨hv, -⟩ := h
    subst hv
    exact ⟨rfl, rfl, [], by simp, by simp⟩
  | cons c rest ih =>
    intro v v' h
    unfold runAdds at h
    cases hadd : add m v c.source c.destination c.description c.technology with
    | mk v1 r =>
      rw [hadd] at h
      cases r with
      | error e => simp at h
      | ok rv =>
        obtain ⟨rel, resp, hfind, hrv, hscope, hviews, hseq⟩ :=
          add_ok_spec m v c.source c.destination c.description c.technology
            v1 rv hadd
        obtain ⟨hscope', hseq', L', hviews', hlabels'⟩ := ih v1 v' h
        have horder : rv.order = toString (v.sequenceNumber.counter + 1) := by
          rw [hrv]
        refine ⟨hscope'.trans hscope, ?_, rv :: L', ?_, ?_⟩
        · rw [hseq', hseq]
          simp only [List.length_cons, SequenceNumber.mk.injEq, and_true]
          omega
        · rw [hviews', hviews]
          simp
        · simp only [List.length_cons]
          rw [List.map_cons, horder, hlabels', hseq,
            List.range_succ_eq_map, List.map_cons, List.map_map]
          refine congrArg₂ _ (by simp) ?_
          refine List.map_congr_left ?_
          intro i hi
          simp only [Function.comp]
          exact congrArg toString (by omega)

/-- C4: for every sequence of successful `add` calls on a fresh view with no
parallel-sequence blocks, the order labels are "1", "2", "3", ...: the n-th
successful add receives the decimal label of n, increasing by exactly one
per call. -/
theorem add_labels_sequential (m : Model) (calls : List AddCall)
    (scope : Option Element) (v' : ViewState)
    (h : runAdds m ⟨scope, [], [], ⟨0, []⟩⟩ calls = (v', .ok ())) :
    v'.relationshipViews.map (fun rv => rv.order) =
      (List.range calls.length).map (fun i => toString (i + 1)) := by
  obtain ⟨-, -, L, hviews, hlabels⟩ := runAdds_ok_spec m calls _ v' h
  rw [hviews]
  simpa using hlabels

/-- C4 witness: two successful adds on the fixture view get labels "1" and
"2". -/
theorem add_labels_sequential_witness :
    ((runAdds wM ⟨none, [], [], ⟨0, []⟩⟩
        [⟨wA, wB, none, none⟩, ⟨wB, wA, some "resp", none⟩]).1.relationshipViews.map
      (fun rv => rv.order)) = ["1", "2"] := by
  have h := add_labels_sequential wM
    [⟨wA, wB, none, none⟩, ⟨wB, wA, some "resp", none⟩] none
    (runAdds wM ⟨none, [], [], ⟨0, []⟩⟩
      [⟨wA, wB, none, none⟩, ⟨wB, wA, some "resp", none⟩]).1 (by rfl)
  exact h.trans (by rfl)

/-- Characterization of a parallel block whose body of `add` calls all
succeed: the scope is unchanged, the frame stack is restored and the counter
is left at its entry value (or advanced past the branch when numbering
continues), and the appended records carry the consecutive labels that
restart from the entry counter. -/
theorem parallelSequence_ok_spec (m : Model) (cn : Bool) (calls : List AddCall)
    (v v' : ViewState)
    (h : parallelSequence m cn calls v = some (v', .ok ())) :
    v'.scope = v.scope ∧
    v'.sequenceNumber =
      ⟨if cn then v.sequenceNumber.counter + calls.length
             else v.sequenceNumber.counter,
       v.sequenceNumber.parents⟩ ∧
    ∃ L, v'.relationshipViews = v.relationshipViews ++ L ∧
      L.map (fun rv => rv.order) =
        (List.range calls.length).map
          (fun i => toString (v.sequenceNumber.counter + i + 1)) := by
  unfold parallelSequence at h
  cases hrun : runAdds m
      { v with sequenceNumber := v.sequenceNumber.startParallelSequence }
      calls with
  | mk vb r =>
    rw [hrun] at h
    simp only [] at h
    have hr : r = .ok () := by
      cases hend : SequenceNumber.endParallelSequence cn vb.sequenceNumber with
      | none => rw [hend] at h; simp at h
      | some s =>
        rw [hend] at h
        simp only [Option.some.injEq, Prod.mk.injEq] at h
        exact h.2
    subst hr
    obtain ⟨hscope, hseq, L, hviews, hlabels⟩ :=
      runAdds_ok_spec m calls _ vb hrun
    simp only [SequenceNumber.startParallelSequence] at hscope hseq hviews hlabels
    rw [hseq] at h
    simp only [SequenceNumber.endParallelSequence, Option.some.injEq,
      Prod.mk.injEq, and_true] at h
    subst h
    exact ⟨hscope, rfl, L, hviews, hlabels⟩

/-- C5: two sibling parallel blocks, both opened with
`continue_numbering = False` and each containing the same count of
successful `add` calls, produce identical sequences of order labels: the
second block reuses the numbers of the first. -/
theorem sibling_parallel_blocks_same_labels (m : Model)
    (calls1 calls2 : List AddCall) (v v1 v2 : ViewState)
    (h1 : parallelSequence m false calls1 v = some (v1, .ok ()))
    (h2 : parallelSequence m false calls2 v1 = some (v2, .ok ()))
    (hlen : calls1.length = calls2.length) :
    ∃ L1 L2,
      v1.relationshipViews = v.relationshipViews ++ L1 ∧
      v2.relationshipViews = v1.relationshipViews ++ L2 ∧
      L1.map (fun rv => rv.order) = L2.map (fun rv => rv.order) := by
  obtain ⟨-, hseq1, L1, hviews1, hlabels1⟩ :=
    parallelSequence_ok_spec m false calls1 v v1 h1
  obtain ⟨-, hseq2, L2, hviews2, hlabels2⟩ :=
    parallelSequence_ok_spec m false calls2 v1 v2 h2
  refine ⟨L1, L2, hviews1, hviews2, ?_⟩
  rw [hlabels1, hlabels2, hlen, hseq1]
  simp

/-- C5 witness: two sibling blocks with one successful add each both label
their step "1". -/
theorem sibling_parallel_blocks_same_labels_witness :
    ∃ L1 L2,
      (⟨none, [0, 1],
        [⟨10, "Requests data", "1", false⟩], ⟨0, []⟩⟩ :
          ViewState).relationshipViews =
        wV.relationshipViews ++ L1 ∧
      (⟨none, [0, 1],
        [⟨10, "Requests data", "1", false⟩,
         ⟨10, "x", "1", true⟩], ⟨0, []⟩⟩ : ViewState).relationshipViews =
        (⟨none, [0, 1],
          [⟨10, "Requests data", "1", false⟩], ⟨0, []⟩⟩ :
            ViewState).relationshipViews ++ L2 ∧
      L1.map (fun rv => rv.order) = L2.map (fun rv => rv.order) :=
  sibling_parallel_blocks_same_labels wM
    [⟨wA, wB, none, none⟩] [⟨wB, wA, some "x", none⟩] wV
    ⟨none, [0, 1], [⟨10, "Requests data", "1", false⟩], ⟨0, []⟩⟩
    ⟨none, [0, 1],
      [⟨10, "Requests data", "1", false⟩, ⟨10, "x", "1", true⟩], ⟨0, []⟩⟩
    (by rfl) (by rfl) (by rfl)

/-- C6: after a parallel block opened with `continue_numbering = True` whose
adds all succeeded, the first successful `add` receives an order label
strictly greater (as a number) than every label assigned inside the block. -/
theorem parallel_continue_numbering_next_label_greater (m : Model)
    (calls : List AddCall) (v v1 v2 : ViewState) (c : AddCall)
    (rv : RelationshipView)
    (h1 : parallelSequence m true calls v = some (v1, .ok ()))
    (h2 : add m v1 c.source c.destination c.description c.technology =
      (v2, .ok rv)) :
    ∃ L, v1.relationshipViews = v.relationshipViews ++ L ∧
      ∀ r ∈ L, ∃ i j : Nat,
        r.order = toString i ∧ rv.order = toString j ∧ i < j := by
  obtain ⟨-, hseq1, L, hviews1, hlabels1⟩ :=
    parallelSequence_ok_spec m true calls v v1 h1
  obtain ⟨rel, resp, -, hrv, -, -, -⟩ :=
    add_ok_spec m v1 c.source c.destination c.description c.technology
      v2 rv h2
  have horder : rv.order =
      toString (v.sequenceNumber.counter + calls.length + 1) := by
    rw [hrv, hseq1]
    simp
  refine ⟨L, hviews1, ?_⟩
  intro r hr
  have hmem : r.order ∈ L.map (fun rv => rv.order) :=
    List.mem_map_of_mem _ hr
  rw [hlabels1] at hmem
  obtain ⟨i, hi, hieq⟩ := List.mem_map.mp hmem
  rw [List.mem_range] at hi
  exact ⟨v.sequenceNumber.counter + i + 1,
    v.sequenceNumber.counter + calls.length + 1, hieq.symm, horder, by omega⟩

/-- C6 witness: a block with one add (label "1") followed by an add after it
(label "2"), numbering continued. -/
theorem parallel_continue_numbering_next_label_greater_witness :
    ∃ L,
      (⟨none, [0, 1],
        [⟨10, "Requests data", "1", false⟩], ⟨1, []⟩⟩ :
          ViewState).relationshipViews =
        wV.relationshipViews ++ L ∧
      ∀ r ∈ L, ∃ i j : Nat,
        r.order = toString i ∧
        (⟨10, "resp", "2", true⟩ : RelationshipView).order = toString j ∧
        i < j :=
  parallel_continue_numbering_next_label_greater wM
    [⟨wA, wB, none, none⟩] wV
    ⟨none, [0, 1], [⟨10, "Requests data", "1", false⟩], ⟨1, []⟩⟩
    ⟨none, [0, 1],
      [⟨10, "Requests data", "1", false⟩, ⟨10, "resp", "2", true⟩], ⟨2, []⟩⟩
    ⟨wB, wA, some "resp", none⟩ ⟨10, "resp", "2", true⟩
    (by rfl) (by rfl)

/-- Running no calls returns the state unchanged with success. -/
theorem runAdds_nil (m : Model) (v : ViewState) :
    runAdds m v [] = (v, .ok ()) := rfl

/-- Unfolding equation of `runAdds` on a non-empty call list. -/
theorem runAdds_cons (m : Model) (v : ViewState) (c : AddCall)
    (cs : List AddCall) :
    runAdds m v (c :: cs) =
      match add m v c.source c.destination c.description c.technology with
      | (v1, .ok _) => runAdds m v1 cs
      | (v1, .error e) => (v1, .error e) := rfl

/-- A run of `add` calls that ends in an error reaches exactly the state of
running only the successful prefix of the calls: the failing call mutated
nothing. -/
theorem runAdds_error_prefix (m : Model) (calls : List AddCall) :
    ∀ (v : ViewState) (err : ViewError),
      (runAdds m v calls).2 = .error err →
      ∃ k, k ≤ calls.length ∧
        runAdds m v (calls.take k) = ((runAdds m v calls).1, .ok ()) := by
  induction calls with
  | nil =>
    intro v err h
    rw [runAdds_nil] at h
    simp at h
  | cons c rest ih =>
    intro v err h
    rw [runAdds_cons] at h
    cases hadd : add m v c.source c.destination c.description c.technology with
    | mk v1 r =>
      rw [hadd] at h
      cases r with
      | ok u =>
        simp only [] at h
        obtain ⟨k, hk, hpre⟩ := ih v1 err h
        refine ⟨k + 1, by simpa using hk, ?_⟩
        rw [List.take_succ_cons, runAdds_cons m v c (List.take k rest),
          runAdds_cons m v c rest, hadd]
        simp only []
        exact hpre
      | error e =>
        have hv1 : v1 = v := by
          have hkeep := add_error_state_eq m v c.source
            c.destination c.description c.technology e (by rw [hadd])
          rw [hadd] at hkeep
          exact hkeep
        refine ⟨0, Nat.zero_le _, ?_⟩
        rw [List.take_zero, runAdds_nil, runAdds_cons m v c rest, hadd]
        simp only []
        rw [hv1]

/-- C8: if an exception propagates out of a parallel block's body,
`end_parallel_sequence(continue_numbering)` still runs (the context manager's
`try`/`finally`), so the resulting view state — its sequence counter in
particular — equals that of a block that ran only the successful prefix of
the `add` calls and completed normally. -/
theorem parallel_sequence_error_restores_counter (m : Model) (cn : Bool)
    (calls : List AddCall) (v v' : ViewState) (err : ViewError)
    (h : parallelSequence m cn calls v = some (v', .error err)) :
    ∃ k, k ≤ calls.length ∧
      parallelSequence m cn (calls.take k) v = some (v', .ok ()) := by
  unfold parallelSequence at h
  cases hrun : runAdds m
      { v with sequenceNumber := v.sequenceNumber.startParallelSequence }
      calls with
  | mk vb r =>
    rw [hrun] at h
    simp only [] at h
    cases hend : SequenceNumber.endParallelSequence cn vb.sequenceNumber with
    | none => rw [hend] at h; simp at h
    | some s =>
      rw [hend] at h
      simp only [Option.some.injEq, Prod.mk.injEq] at h
      obtain ⟨hv', hr⟩ := h
      subst hv'
      obtain ⟨k, hk, hpre⟩ := runAdds_error_prefix m calls
        { v with sequenceNumber := v.sequenceNumber.startParallelSequence }
        err (by rw [hrun, ← hr])
      refine ⟨k, hk, ?_⟩
      unfold parallelSequence
      rw [hpre, hrun]
      simp only []
      rw [hend]

/-- C8 witness: a block whose second add fails ends in the same state as a
block that ran only the first add. -/
theorem parallel_sequence_error_restores_counter_witness :
    ∃ k, k ≤ ([⟨wA, wB, none, none⟩, ⟨wA, wC, none, none⟩] :
        List AddCall).length ∧
      parallelSequence wM true
          (([⟨wA, wB, none, none⟩, ⟨wA, wC, none, none⟩] :
            List AddCall).take k) wV =
        some (⟨none, [0, 1],
          [⟨10, "Requests data", "1", false⟩], ⟨1, []⟩⟩, .ok ()) :=
  parallel_sequence_error_restores_counter wM true
    [⟨wA, wB, none, none⟩, ⟨wA, wC, none, none⟩] wV
    ⟨none, [0, 1], [⟨10, "Requests data", "1", false⟩], ⟨1, []⟩⟩
    (.valueError
      "Only people and software systems can be added to this dynamic view.")
    (by rfl)

/-- C7: scope validation decides the spec's scenarios: with a software-system
scope the scope element itself is rejected; with a container scope the
container's parent system is rejected; with no scope a container is rejected
and a software system is accepted; and a person is always accepted whatever
the scope. -/
theorem scope_validation_scenarios (m : Model) :
    (∀ (scope : Option Element) (p : Element), p.kind = .person →
      checkElementCanBeAdded m scope p = .ok ()) ∧
    (∀ s : Element, s.kind = .softwareSystem →
      ∃ msg, checkElementCanBeAdded m (some s) s = .error (.valueError msg)) ∧
    (∀ c s : Element, c.kind = .container → s.kind = .softwareSystem →
      c.parent = some s.id →
      ∃ msg, checkElementCanBeAdded m (some c) s = .error (.valueError msg)) ∧
    (∀ c : Element, c.kind = .container →
      ∃ msg, checkElementCanBeAdded m none c = .error (.valueError msg)) ∧
    (∀ s : Element, s.kind = .softwareSystem →
      checkElementCanBeAdded m none s = .ok ()) := by
  refine ⟨?_, ?_, ?_, ?_, ?_⟩
  · intro scope p hp
    simp [checkElementCanBeAdded, hp]
  · intro s hs
    exact ⟨s.name ++ " is already the scope of this view and cannot be added to it.",
      by simp [checkElementCanBeAdded, hs]⟩
  · intro c s hc hs hpar
    exact ⟨s.name ++ " is already the scope of this view and cannot be added to it.",
      by simp [checkElementCanBeAdded, hc, hs, hpar]⟩
  · intro c hc
    exact ⟨"Only people and software systems can be added to this dynamic " ++
        "view.",
      by simp [checkElementCanBeAdded, hc]⟩
  · intro s hs
    simp [checkElementCanBeAdded, hs]

/-- C7 witness: the scenarios evaluated on the fixture model: person `P`
accepted under a system scope, system `A` rejected as its own scope,
system `A` rejected under the scope of its container `C`, container `C`
rejected without scope, system `A` accepted without scope. -/
theorem scope_validation_scenarios_witness :
    checkElementCanBeAdded wM (some wA) wP = .ok () ∧
    (∃ msg, checkElementCanBeAdded wM (some wA) wA = .error (.valueError msg)) ∧
    (∃ msg, checkElementCanBeAdded wM (some wC) wA = .error (.valueError msg)) ∧
    (∃ msg, checkElementCanBeAdded wM none wC = .error (.valueError msg)) ∧
    checkElementCanBeAdded wM none wA = .ok () :=
  ⟨(scope_validation_scenarios wM).1 (some wA) wP rfl,
    (scope_validation_scenarios wM).2.1 wA rfl,
    (scope_validation_scenarios wM).2.2.1 wC wA rfl rfl rfl,
    (scope_validation_scenarios wM).2.2.2.1 wC rfl,
    (scope_validation_scenarios wM).2.2.2.2 wA rfl⟩

/-- C9: `add(A, C, technology=t)` with a non-empty `t` and no relationship
between `A` and `C` carrying technology `t` in either direction fails with
the relationship-not-found `ValueError` whose message mentions `t`; with no
technology filter the same kind of `ValueError` is raised and its message
omits the technology clause. -/
theorem add_relationship_not_found_technology (m : Model) (v : ViewState)
    (a c : Element) (desc : Option String) (t : String)
    (hok1 : checkElementCanBeAdded m v.scope a = .ok ())
    (hok2 : checkElementCanBeAdded m v.scope c = .ok ())
    (ht : t ≠ "")
    (hno : ∀ rel ∈ m.relationships,
      ¬ ((rel.source = a.id ∧ rel.destination = c.id ∧
            rel.technology = some t) ∨
         (rel.source = c.id ∧ rel.destination = a.id ∧
            rel.technology = some t))) :
    (add m v a c desc (some t) =
      (v, .error (.valueError (relationshipNotFoundMessage a c (some t)))) ∧
     ∃ p q, relationshipNotFoundMessage a c (some t) = p ++ t ++ q) ∧
    ∀ desc2 : Option String,
      (∀ rel ∈ m.relationships,
        ¬ ((rel.source = a.id ∧ rel.destination = c.id) ∨
           (rel.source = c.id ∧ rel.destination = a.id))) →
      add m v a c desc2 none =
        (v, .error (.valueError (relationshipNotFoundMessage a c none))) ∧
      relationshipNotFoundMessage a c none =
        "A relationship between " ++ a.name ++ " and " ++ c.name ++
          " does not exist in model." := by
  have hmem : ∀ rel ∈ getEfferentRelationships m a,
      rel ∈ m.relationships ∧ rel.source = a.id := by
    intro rel hr
    have := List.mem_filter.mp hr
    exact ⟨this.1, by simpa using this.2⟩
  have hmem' : ∀ rel ∈ getAfferentRelationships m a,
      rel ∈ m.relationships ∧ rel.destination = a.id := by
    intro rel hr
    have := List.mem_filter.mp hr
    exact ⟨this.1, by simpa using this.2⟩
  refine ⟨⟨?_, ?_⟩, ?_⟩
  · have hfind : findRelationship m a desc c (some t) = (none, true) := by
      unfold findRelationship
      have hfwd : (getEfferentRelationships m a).find?
          (fun rel => forwardMatches rel c desc (some t)) = none := by
        rw [List.find?_eq_none]
        intro rel hr hcontra
        obtain ⟨hsrcdst, -, htech⟩ :=
          (forwardMatches_iff_spec rel c desc (some t)).mp hcontra
        obtain ⟨hin, hsrc⟩ := hmem rel hr
        rcases htech with h1 | h2
        · exact Option.noConfusion h1
        · exact hno rel hin (Or.inl ⟨hsrc, hsrcdst, h2⟩)
      have hresp : (getAfferentRelationships m a).find?
          (fun rel => responseMatches rel c (some t)) = none := by
        rw [List.find?_eq_none]
        intro rel hr hcontra
        obtain ⟨hsrceq, htech⟩ :=
          (responseMatches_iff_spec rel c (some t)).mp hcontra
        obtain ⟨hin, hdst⟩ := hmem' rel hr
        rcases htech with h1 | h2
        · exact Option.noConfusion h1
        · exact hno rel hin (Or.inr ⟨hsrceq, hdst, h2⟩)
      rw [hfwd, hresp]
    unfold add
    rw [hok1, hok2, hfind]
  · refine ⟨"A relationship between " ++ a.name ++ " and " ++ c.name ++
      " with technology '", "' does not exist in model.", ?_⟩
    unfold relationshipNotFoundMessage strTruthy
    simp [ht, String.append_assoc]
  · intro desc2 hno2
    have hfind : findRelationship m a desc2 c none = (none, true) := by
      unfold findRelationship
      have hfwd : (getEfferentRelationships m a).find?
          (fun rel => forwardMatches rel c desc2 none) = none := by
        rw [List.find?_eq_none]
        intro rel hr hcontra
        obtain ⟨hsrcdst, -, -⟩ :=
          (forwardMatches_iff_spec rel c desc2 none).mp hcontra
        obtain ⟨hin, hsrc⟩ := hmem rel hr
        exact hno2 rel hin (Or.inl ⟨hsrc, hsrcdst⟩)
      have hresp : (getAfferentRelationships m a).find?
          (fun rel => responseMatches rel c none) = none := by
        rw [List.find?_eq_none]
        intro rel hr hcontra
        obtain ⟨hsrceq, -⟩ :=
          (responseMatches_iff_spec rel c none).mp hcontra
        obtain ⟨hin, hdst⟩ := hmem' rel hr
        exact hno2 rel hin (Or.inr ⟨hsrceq, hdst⟩)
      rw [hfwd, hresp]
    refine ⟨?_, by rfl⟩
    unfold add
    rw [hok1, hok2, hfind]

/-- C9 witness: no relationship between `A` and `D` exists, so adding with
technology "gRPC" fails mentioning the technology and adding without one
fails with the plain message. -/
theorem add_relationship_not_found_technology_witness :
    (add wM wV wA wD none (some "gRPC") =
      (wV, .error (.valueError
        (relationshipNotFoundMessage wA wD (some "gRPC")))) ∧
     ∃ p q, relationshipNotFoundMessage wA wD (some "gRPC") =
        p ++ "gRPC" ++ q) ∧
    ∀ desc2 : Option String,
      (∀ rel ∈ wM.relationships,
        ¬ ((rel.source = wA.id ∧ rel.destination = wD.id) ∨
           (rel.source = wD.id ∧ rel.destination = wA.id))) →
      add wM wV wA wD desc2 none =
        (wV, .error (.valueError (relationshipNotFoundMessage wA wD none))) ∧
      relationshipNotFoundMessage wA wD none =
        "A relationship between " ++ wA.name ++ " and " ++ wD.name ++
          " does not exist in model." :=
  add_relationship_not_found_technology wM wV wA wD none "gRPC"
    (by rfl) (by rfl) (by decide) (by decide)

/-- C10: a successful `add` records as effective description the resolved
relationship's declared description when the description argument is `None`
or the empty string, and the argument itself otherwise. -/
theorem add_effective_description (m : Model) (v : ViewState)
    (source destination : Element) (desc tech : Option String)
    (v' : ViewState) (rv : RelationshipView) (rel : Relationship)
    (resp : Bool)
    (hfind : findRelationship m source desc destination tech =
      (some rel, resp))
    (hadd : add m v source destination desc tech = (v', .ok rv)) :
    ((desc = none ∨ desc = some "") → rv.description = rel.description) ∧
    (∀ ds, desc = some ds → ds ≠ "" → rv.description = ds) := by
  obtain ⟨rel2, resp2, hfind2, hrv, -, -, -⟩ :=
    add_ok_spec m v source destination desc tech v' rv hadd
  rw [hfind] at hfind2
  simp only [Prod.mk.injEq, Option.some.injEq] at hfind2
  obtain ⟨hr, -⟩ := hfind2
  subst hr
  have hdesc : rv.description = pyStrOr desc rel.description := by
    rw [hrv]
  constructor
  · rintro (h1 | h1) <;> subst h1 <;>
      simp [hdesc, pyStrOr, strTruthy]
  · intro ds hds hne
    subst hds
    simp [hdesc, pyStrOr, strTruthy, hne]

/-- C10 witness: adding with the empty-string description records the
declared description "Requests data" of the resolved relationship. -/
theorem add_effective_description_witness :
    ((some "" = (none : Option String) ∨ some "" = some "") →
      (⟨10, "Requests data", "1", false⟩ : RelationshipView).description =
        wR1.description) ∧
    (∀ ds, (some "" : Option String) = some ds → ds ≠ "" →
      (⟨10, "Requests data", "1", false⟩ :
        RelationshipView).description = ds) :=
  add_effective_description wM wV wA wB (some "") none
    ⟨none, [0, 1], [⟨10, "Requests data", "1", false⟩], ⟨1, []⟩⟩
    ⟨10, "Requests data", "1", false⟩ wR1 false (by rfl) (by rfl)

end Structurizr
